import Mathlib

/-!
Verification of `assets/samples/sample-code.c`.

A shallow embedding of the sample C program (`calculateSum`, `printArray`,
`main` and the global `globalCounter`) together with theorems about its
observable behaviour: the text written to standard output, the value of the
global counter, the array subscripts that are evaluated and the exit code.

Modelling conventions

* `int` is a 32-bit two's complement integer.  Values are carried as `Int`
  and arithmetic that can leave the range is reduced with `wrapInt`.
* Standard output is the `String` of everything written so far; a `printf`
  call appends its formatted text.
* Array objects live in `State.heap`; an `int arr[]` parameter is the handle
  (position in the heap) of the object it points to.  A subscript outside the
  object, or through a handle that designates no object, has no defined
  result and is modelled by `none`.
* `State.reads` is a ghost log of the subscripts evaluated so far.
-/

namespace SampleCode

/-! ## Machine integers -/

/-- Smallest value of a C `int`. -/
def INT_MIN : Int := -2147483648

/-- Largest value of a C `int`. -/
def INT_MAX : Int := 2147483647

/-- The integer is representable as a C `int`. -/
def inIntRange (x : Int) : Prop := INT_MIN ≤ x ∧ x ≤ INT_MAX

instance (x : Int) : Decidable (inIntRange x) := by
  unfold inIntRange; exact inferInstance

/-- Reduction of a mathematical integer to the 32-bit two's complement value
with the same low 32 bits. -/
def wrapInt (x : Int) : Int := (x + 2147483648) % 4294967296 - 2147483648

/-! ## Program state -/

/-- Observable program state. -/
structure State where
  /-- The global `int globalCounter`. -/
  globalCounter : Int
  /-- Everything written to standard output so far. -/
  stdout : String
  /-- The array objects; a handle is a position in this list. -/
  heap : List (List Int)
  /-- Ghost log: the subscripts `i` of every `arr[i]` evaluated so far. -/
  reads : List Int
deriving DecidableEq

/-- State at program start: `int globalCounter = 0;`, nothing written, no
array object, no subscript evaluated. -/
def initState : State :=
  { globalCounter := 0, stdout := "", heap := [], reads := [] }

/-- Conversion `%d` of `printf`: the decimal rendering of an `int`, with a
leading `-` for negative values. -/
def fmtD (v : Int) : String := toString v

/-- A `printf` call whose formatted text is `text`: the text is appended to
standard output. -/
def printf (text : String) (s : State) : State :=
  { s with stdout := s.stdout ++ text }

/-- Evaluation of `arr[i]`: defined when `arr` designates an array object and
`0 ≤ i < length`; the subscript is recorded in the ghost log. -/
def readElem (arr : Nat) (i : Int) (s : State) : Option (Int × State) :=
  match s.heap[arr]? with
  | none => none
  | some xs =>
    if 0 ≤ i then
      match xs[i.toNat]? with
      | none => none
      | some v => some (v, { s with reads := s.reads ++ [i] })
    else none

/-! ## The functions of the program -/

/-- Source:
```c
int calculateSum(int a, int b) {
    return a + b;
}
```
-/
def calculateSum (a b : Int) (s : State) : Int × State :=
  (wrapInt (a + b), s)

/-- The loop of `printArray`, entered with the current value of `i`:
```c
for (...; i < size; i++) {
    printf("%d ", arr[i]);
}
```
Since `i < size ≤ INT_MAX` inside the body, `i++` cannot overflow. -/
def printArrayLoop (arr : Nat) (size : Int) (i : Int) (s : State) : Option State :=
  if _h : i < size then
    match readElem arr i s with
    | none => none
    | some (v, s1) => printArrayLoop arr size (i + 1) (printf (fmtD v ++ " ") s1)
  else some s
termination_by (size - i).toNat
decreasing_by omega

/-- Source:
```c
void printArray(int arr[], int size) {
    int i;
    printf("配列の内容: ");
    for (i = 0; i < size; i++) {
        printf("%d ", arr[i]);
    }
    printf("\n");
}
```
-/
def printArray (arr : Nat) (size : Int) (s : State) : Option State :=
  match printArrayLoop arr size 0 (printf "配列の内容: " s) with
  | none => none
  | some s1 => some (printf "\n" s1)

/-- The statement `globalCounter++;`. -/
def incrGlobalCounter (s : State) : State :=
  { s with globalCounter := wrapInt (s.globalCounter + 1) }

/-- Activation record of `main`: its locals and the program state. -/
structure MainFrame where
  /-- Handle of the local array `numbers`. -/
  numbers : Nat
  /-- The local `sum`; `none` while it holds no value. -/
  sum : Option Int
  /-- The program state. -/
  st : State
deriving DecidableEq

/-- A statement of `main`. -/
abbrev Stmt := MainFrame → Option MainFrame

/-- Declarations at the head of `main`:
```c
int numbers[5] = {1, 2, 3, 4, 5};
int sum;
```
The array becomes a new object of the heap. -/
def mainEntry (s : State) : MainFrame :=
  { numbers := s.heap.length
    sum := none
    st := { s with heap := s.heap ++ [[1, 2, 3, 4, 5]] } }

/-- The statement `printArray(numbers, 5);`. -/
def stmtPrintArray : Stmt := fun f =>
  match printArray f.numbers 5 f.st with
  | none => none
  | some s => some { f with st := s }

/-- The statement `sum = calculateSum(10, 20);`. -/
def stmtAssignSum : Stmt := fun f =>
  let r := calculateSum 10 20 f.st
  some { f with sum := some r.1, st := r.2 }

/-- The statement `printf("10 + 20 = %d\n", sum);`. -/
def stmtPrintSum : Stmt := fun f =>
  match f.sum with
  | none => none
  | some v => some { f with st := printf ("10 + 20 = " ++ fmtD v ++ "\n") f.st }

/-- The statement `globalCounter++;`. -/
def stmtIncr : Stmt := fun f =>
  some { f with st := incrGlobalCounter f.st }

/-- The statement `printf("グローバルカウンター: %d\n", globalCounter);`. -/
def stmtPrintCounter : Stmt := fun f =>
  some { f with st := printf ("グローバルカウンター: " ++ fmtD f.st.globalCounter ++ "\n") f.st }

/-- The statements of `main` between its declarations and `return 0;`, in
program order. -/
def mainBody : List Stmt :=
  [stmtPrintArray, stmtAssignSum, stmtPrintSum, stmtIncr, stmtPrintCounter]

/-- Sequential execution of a list of statements. -/
def execStmts : List Stmt → MainFrame → Option MainFrame
  | [], f => some f
  | st :: rest, f =>
    match st f with
    | none => none
    | some f1 => execStmts rest f1

/-- Source:
```c
int main() {
    int numbers[5] = {1, 2, 3, 4, 5};
    int sum;
    printArray(numbers, 5);
    sum = calculateSum(10, 20);
    printf("10 + 20 = %d\n", sum);
    globalCounter++;
    printf("グローバルカウンター: %d\n", globalCounter);
    return 0;
}
```
The result is the exit code and the final program state. -/
def main (s : State) : Option (Int × State) :=
  match execStmts mainBody (mainEntry s) with
  | none => none
  | some f => some (0, f.st)

/-! ## Vocabulary of the statements -/

/-- The frame reached after the first `k` statements of `main`. -/
def frameAfter (k : Nat) (s : State) : Option MainFrame :=
  execStmts (mainBody.take k) (mainEntry s)


/-! ## Auxiliary lemmas -/

theorem wrapInt_of_inIntRange {x : Int} (h : inIntRange x) : wrapInt x = x := by
  unfold inIntRange INT_MIN INT_MAX at h
  unfold wrapInt
  omega

/-- Inside the loop body of `printArray` the increment `i++` stays in the
`int` range, so the loop counter never wraps. -/
theorem loop_increment_in_range {size i : Int} (hsize : inIntRange size) (h0 : 0 ≤ i)
    (hlt : i < size) : wrapInt (i + 1) = i + 1 := by
  apply wrapInt_of_inIntRange
  unfold inIntRange INT_MIN INT_MAX at *
  omega

theorem foldl_append_string (l : List String) (acc : String) :
    l.foldl (fun r s => r ++ s) acc = acc ++ l.foldl (fun r s => r ++ s) "" := by
  induction l generalizing acc with
  | nil => simp
  | cons a l ih =>
    simp only [List.foldl_cons]
    rw [ih (acc ++ a), ih ("" ++ a)]
    simp [String.append_assoc]

theorem string_join_nil : String.join [] = "" := rfl

theorem string_join_cons (a : String) (l : List String) :
    String.join (a :: l) = a ++ String.join l := by
  unfold String.join
  simp only [List.foldl_cons]
  rw [foldl_append_string]
  simp

theorem intercalate_go_eq (sep acc : String) (l : List String) :
    String.intercalate.go acc sep l = acc ++ String.join (l.map fun a => sep ++ a) := by
  induction l generalizing acc with
  | nil => simp [String.intercalate.go, string_join_nil]
  | cons a l ih =>
    simp only [String.intercalate.go, List.map_cons, string_join_cons]
    rw [ih]
    simp [String.append_assoc]

theorem join_suffix_eq (sep : String) (l : List String) (acc : String) :
    acc ++ String.join (l.map fun a => sep ++ a) ++ sep
      = acc ++ sep ++ String.join (l.map fun a => a ++ sep) := by
  induction l generalizing acc with
  | nil => simp [string_join_nil]
  | cons a l ih =>
    simp only [List.map_cons, string_join_cons]
    have := ih (acc ++ sep ++ a)
    simp only [String.append_assoc] at this ⊢
    exact this

/-- Joining the elements, each followed by the separator, is the same as
interspersing the separator and appending one more at the end. -/
theorem join_each_eq_intercalate (sep a : String) (l : List String) :
    String.join ((a :: l).map fun x => x ++ sep) = String.intercalate sep (a :: l) ++ sep := by
  simp only [String.intercalate, intercalate_go_eq, List.map_cons, string_join_cons]
  rw [join_suffix_eq]

theorem readElem_of_lt {arr : Nat} {xs : List Int} {s : State}
    (hs : s.heap[arr]? = some xs) (i : Nat) (hi : i < xs.length) :
    readElem arr (i : Int) s = some (xs[i], { s with reads := s.reads ++ [(i : Int)] }) := by
  simp [readElem, hs, List.getElem?_eq_getElem hi]

/-- Closed form of the loop of `printArray` started at subscript `i` with `m`
iterations left, all inside the array object. -/
theorem printArrayLoop_spec (arr : Nat) (xs : List Int) (m : Nat) :
    ∀ (i : Nat) (s : State), s.heap[arr]? = some xs → i + m ≤ xs.length →
      printArrayLoop arr ((i + m : Nat) : Int) (i : Int) s
        = some { s with
            stdout := s.stdout ++ String.join (((xs.drop i).take m).map fun v => fmtD v ++ " ")
            reads := s.reads ++ (List.range' i m).map Int.ofNat } := by
  induction m with
  | zero =>
    intro i s _ _
    rw [printArrayLoop]
    simp [string_join_nil]
  | succ m ih =>
    intro i s hs hlen
    have hi : i < xs.length := by omega
    rw [printArrayLoop]
    have hlt : (i : Int) < ((i + (m + 1) : Nat) : Int) := by omega
    rw [dif_pos hlt, readElem_of_lt hs i hi]
    simp only []
    have hcast : ((i + (m + 1) : Nat) : Int) = (((i + 1) + m : Nat) : Int) := by omega
    have hnext : (i : Int) + 1 = ((i + 1 : Nat) : Int) := by omega
    rw [hcast, hnext, ih (i + 1) _ (by simpa [printf] using hs) (by omega)]
    have hdrop : xs.drop i = xs[i] :: xs.drop (i + 1) := List.drop_eq_getElem_cons hi
    rw [hdrop]
    simp only [printf, List.take_succ_cons, List.map_cons, string_join_cons,
      String.append_assoc, List.range'_succ, List.append_assoc, List.singleton_append,
      Int.ofNat_eq_coe]


/-- Closed form of a call of `printArray` whose size does not exceed the
length of the array object; a negative size is included. -/
theorem printArray_spec {arr : Nat} {xs : List Int} {s : State}
    (hs : s.heap[arr]? = some xs) (n : Int) (hn : n ≤ xs.length) :
    printArray arr n s
      = some { s with
          stdout := s.stdout ++ ("配列の内容: "
            ++ String.join ((xs.take n.toNat).map fun v => fmtD v ++ " ") ++ "\n")
          reads := s.reads ++ (List.range n.toNat).map Int.ofNat } := by
  unfold printArray
  by_cases h0 : 0 ≤ n
  · have hn' : (0 : Nat) + n.toNat ≤ xs.length := by omega
    have hcast : n = ((0 + n.toNat : Nat) : Int) := by omega
    have hloop := printArrayLoop_spec arr xs n.toNat 0 (printf "配列の内容: " s)
      (by simpa [printf] using hs) hn'
    rw [← hcast] at hloop
    rw [show (0 : Int) = ((0 : Nat) : Int) from rfl, hloop]
    simp only [printf, List.drop_zero, String.append_assoc, List.range_eq_range']
  · have hneg : ¬ ((0 : Int) < n) := by omega
    have ht : n.toNat = 0 := by omega
    rw [printArrayLoop, dif_neg hneg, ht]
    simp only [printf, List.take_zero, List.map_nil, string_join_nil,
      String.append_empty, List.range_zero, List.append_nil, String.append_assoc]

/-- Every loop run that returns leaves the counter and the heap as they were. -/
theorem printArrayLoop_frame (arr : Nat) (size : Int) (fuel : Nat) :
    ∀ (i : Int) (s s' : State), (size - i).toNat ≤ fuel →
      printArrayLoop arr size i s = some s' →
      s'.globalCounter = s.globalCounter ∧ s'.heap = s.heap := by
  induction fuel with
  | zero =>
    intro i s s' hfuel h
    rw [printArrayLoop, dif_neg (by omega)] at h
    cases h
    exact ⟨rfl, rfl⟩
  | succ fuel ih =>
    intro i s s' hfuel h
    rw [printArrayLoop] at h
    by_cases hlt : i < size
    · rw [dif_pos hlt] at h
      cases hr : readElem arr i s with
      | none => rw [hr] at h; cases h
      | some r =>
        obtain ⟨v, s1⟩ := r
        rw [hr] at h
        simp only [] at h
        have hs1 : s1.globalCounter = s.globalCounter ∧ s1.heap = s.heap := by
          unfold readElem at hr
          split at hr
          · cases hr
          · split at hr
            · split at hr
              · cases hr
              · cases hr; exact ⟨rfl, rfl⟩
            · cases hr
        have := ih (i + 1) _ s' (by omega) h
        simp only [printf] at this
        exact ⟨this.1.trans hs1.1, this.2.trans hs1.2⟩
    · rw [dif_neg hlt] at h
      cases h
      exact ⟨rfl, rfl⟩

/-- Every call of `printArray` that returns leaves the counter and the heap
as they were. -/
theorem printArray_frame {arr : Nat} {size : Int} {s s' : State}
    (h : printArray arr size s = some s') :
    s'.globalCounter = s.globalCounter ∧ s'.heap = s.heap := by
  unfold printArray at h
  cases hl : printArrayLoop arr size 0 (printf "配列の内容: " s) with
  | none => rw [hl] at h; cases h
  | some s1 =>
    rw [hl] at h
    cases h
    have := printArrayLoop_frame arr size (size - 0).toNat 0 _ s1 (le_refl _) hl
    simpa [printf] using this


/-- Rendering each element followed by a space equals interspersing single
spaces and, for a non-empty list, appending one more space. -/
theorem join_fmtD_eq_intercalate (xs : List Int) :
    String.join (xs.map fun v => fmtD v ++ " ")
      = String.intercalate " " (xs.map fmtD) ++ (if xs = [] then "" else " ") := by
  cases xs with
  | nil => rfl
  | cons x xs =>
    have h := join_each_eq_intercalate " " (fmtD x) (xs.map fmtD)
    simp only [List.map_cons, List.map_map] at h
    simp only [List.map_cons, if_neg (List.cons_ne_nil x xs)]
    exact h

/-- The array object declared by `main` is found under its handle. -/
theorem mainEntry_heap (s : State) :
    (mainEntry s).st.heap[(mainEntry s).numbers]? = some [1, 2, 3, 4, 5] := by
  simp [mainEntry]

/-- The frame of `main` after `printArray(numbers, 5);`. -/
theorem stmtPrintArray_mainEntry (s : State) :
    stmtPrintArray (mainEntry s)
      = some { numbers := s.heap.length
               sum := none
               st := { globalCounter := s.globalCounter
                       stdout := s.stdout ++ "配列の内容: 1 2 3 4 5 \n"
                       heap := s.heap ++ [[1, 2, 3, 4, 5]]
                       reads := s.reads ++ [0, 1, 2, 3, 4] } } := by
  unfold stmtPrintArray
  rw [printArray_spec (mainEntry_heap s) 5 (by decide)]
  have hout : "配列の内容: "
      ++ String.join ((([1, 2, 3, 4, 5] : List Int).take (5 : Int).toNat).map
          fun v => fmtD v ++ " ") ++ "\n" = "配列の内容: 1 2 3 4 5 \n" := by decide
  have hreads : (List.range (5 : Int).toNat).map Int.ofNat = [0, 1, 2, 3, 4] := by decide
  rw [hout, hreads]
  rfl

/-- The frames of `main` after each of its statements, for a start state
whose counter is 0. -/
theorem frameAfter_closed (s : State) (h0 : s.globalCounter = 0) :
    frameAfter 0 s = some (mainEntry s)
    ∧ frameAfter 1 s = some
        { numbers := s.heap.length, sum := none
          st := { globalCounter := 0
                  stdout := s.stdout ++ "配列の内容: 1 2 3 4 5 \n"
                  heap := s.heap ++ [[1, 2, 3, 4, 5]]
                  reads := s.reads ++ [0, 1, 2, 3, 4] } }
    ∧ frameAfter 2 s = some
        { numbers := s.heap.length, sum := some 30
          st := { globalCounter := 0
                  stdout := s.stdout ++ "配列の内容: 1 2 3 4 5 \n"
                  heap := s.heap ++ [[1, 2, 3, 4, 5]]
                  reads := s.reads ++ [0, 1, 2, 3, 4] } }
    ∧ frameAfter 3 s = some
        { numbers := s.heap.length, sum := some 30
          st := { globalCounter := 0
                  stdout := s.stdout ++ "配列の内容: 1 2 3 4 5 \n" ++ "10 + 20 = 30\n"
                  heap := s.heap ++ [[1, 2, 3, 4, 5]]
                  reads := s.reads ++ [0, 1, 2, 3, 4] } }
    ∧ frameAfter 4 s = some
        { numbers := s.heap.length, sum := some 30
          st := { globalCounter := 1
                  stdout := s.stdout ++ "配列の内容: 1 2 3 4 5 \n" ++ "10 + 20 = 30\n"
                  heap := s.heap ++ [[1, 2, 3, 4, 5]]
                  reads := s.reads ++ [0, 1, 2, 3, 4] } }
    ∧ frameAfter 5 s = some
        { numbers := s.heap.length, sum := some 30
          st := { globalCounter := 1
                  stdout := s.stdout ++ "配列の内容: 1 2 3 4 5 \n" ++ "10 + 20 = 30\n"
                    ++ "グローバルカウンター: 1\n"
                  heap := s.heap ++ [[1, 2, 3, 4, 5]]
                  reads := s.reads ++ [0, 1, 2, 3, 4] } } := by
  have hsum : wrapInt (10 + 20) = 30 := by decide
  have hinc : wrapInt (0 + 1) = 1 := by decide
  have hl2 : "10 + 20 = " ++ fmtD 30 ++ "\n" = "10 + 20 = 30\n" := by decide
  have hl3 : "グローバルカウンター: " ++ fmtD 1 ++ "\n" = "グローバルカウンター: 1\n" := by decide
  refine ⟨rfl, ?_, ?_, ?_, ?_, ?_⟩ <;>
    simp only [frameAfter, mainBody, List.take, execStmts, stmtPrintArray_mainEntry, h0,
      stmtAssignSum, calculateSum, hsum, stmtPrintSum, printf, hl2, stmtIncr,
      incrGlobalCounter, hinc, stmtPrintCounter, hl3]

/-- Result of `main` for a start state whose counter is 0. -/
theorem main_closed (s : State) (h0 : s.globalCounter = 0) :
    main s = some (0,
      { globalCounter := 1
        stdout := s.stdout ++ "配列の内容: 1 2 3 4 5 \n" ++ "10 + 20 = 30\n"
          ++ "グローバルカウンター: 1\n"
        heap := s.heap ++ [[1, 2, 3, 4, 5]]
        reads := s.reads ++ [0, 1, 2, 3, 4] }) := by
  have h5 := (frameAfter_closed s h0).2.2.2.2.2
  unfold frameAfter at h5
  rw [show mainBody.take 5 = mainBody from rfl] at h5
  unfold main
  rw [h5]


/-! ## The sum operation -/

/-- Claim C1. For all `int` values `a` and `b` whose mathematical sum is
representable as an `int`, `calculateSum(a, b)` returns exactly `a + b`. -/
theorem calculateSum_returns_sum (a b : Int) (s : State)
    (ha : inIntRange a) (hb : inIntRange b) (hab : inIntRange (a + b)) :
    (calculateSum a b s).1 = a + b := by
  have _hin := And.intro ha hb
  simp [calculateSum, wrapInt_of_inIntRange hab]

/-- Witness for C1 at the two extreme `int` values. -/
theorem calculateSum_returns_sum_witness :
    inIntRange 2147483647 ∧ inIntRange (-2147483648)
      ∧ inIntRange (2147483647 + -2147483648)
      ∧ (calculateSum 2147483647 (-2147483648) initState).1 = 2147483647 + -2147483648 :=
  ⟨by decide, by decide, by decide,
    calculateSum_returns_sum 2147483647 (-2147483648) initState
      (by decide) (by decide) (by decide)⟩

/-- Claim C7. `calculateSum` has no side effects: the state after the call is
the state before it, in particular `globalCounter` and standard output are
unchanged, and the returned value is the same in every state. -/
theorem calculateSum_no_side_effects (a b : Int) (s t : State) :
    (calculateSum a b s).2 = s
      ∧ (calculateSum a b s).2.globalCounter = s.globalCounter
      ∧ (calculateSum a b s).2.stdout = s.stdout
      ∧ (calculateSum a b s).1 = (calculateSum a b t).1 :=
  ⟨rfl, rfl, rfl, rfl⟩

/-! ## The array printer -/

/-- Claim C9. For a size `n` with `0 ≤ n ≤ length(arr)`, `printArray(arr, n)`
returns and appends to standard output the label, then for each `i` from `0`
to `n - 1` the decimal rendering of `arr[i]` followed by one space, then a
newline; for `n ≥ 1` the appended text ends with a space and the newline. -/
theorem printArray_output (arr : Nat) (xs : List Int) (n : Int) (s : State)
    (hs : s.heap[arr]? = some xs) (h0 : 0 ≤ n) (hn : n ≤ xs.length) :
    ∃ s', printArray arr n s = some s'
      ∧ s'.stdout = s.stdout ++ ("配列の内容: "
          ++ String.join ((xs.take n.toNat).map fun v => fmtD v ++ " ") ++ "\n")
      ∧ (1 ≤ n → ∃ body, s'.stdout = s.stdout ++ ("配列の内容: " ++ body ++ " " ++ "\n")) := by
  have _hnonneg := h0
  refine ⟨_, printArray_spec hs n hn, rfl, ?_⟩
  intro h1
  refine ⟨String.intercalate " " ((xs.take n.toNat).map fmtD), ?_⟩
  have hne : xs.take n.toNat ≠ [] := by
    intro hnil
    have hlen := congrArg List.length hnil
    simp only [List.length_take, List.length_nil] at hlen
    omega
  simp only [join_fmtD_eq_intercalate, if_neg hne, String.append_assoc]

/-- Witness for C9: the first two elements of a three-element array. -/
theorem printArray_output_witness :
    ({ initState with heap := [[7, -8, 9]] } : State).heap[0]? = some [7, -8, 9]
      ∧ (0 : Int) ≤ 2 ∧ (2 : Int) ≤ ([7, -8, 9] : List Int).length
      ∧ ∃ s', printArray 0 2 { initState with heap := [[7, -8, 9]] } = some s'
        ∧ s'.stdout = ({ initState with heap := [[7, -8, 9]] } : State).stdout ++ ("配列の内容: "
            ++ String.join ((([7, -8, 9] : List Int).take (2 : Int).toNat).map
                fun v => fmtD v ++ " ") ++ "\n")
        ∧ ((1 : Int) ≤ 2 → ∃ body, s'.stdout
            = ({ initState with heap := [[7, -8, 9]] } : State).stdout
              ++ ("配列の内容: " ++ body ++ " " ++ "\n")) :=
  ⟨rfl, by decide, by decide,
    printArray_output 0 [7, -8, 9] 2 { initState with heap := [[7, -8, 9]] } rfl
      (by decide) (by decide)⟩

/-- Counterexample for C3 as stated. For the two-element array `[1, 2]` the
call `printArray(arr, 2)` appends `配列の内容: 1 2 ` and a newline, which is
not the label, the elements joined with single spaces and a newline. -/
theorem printArray_joined_counterexample :
    printArray 0 2 { initState with heap := [[1, 2]] }
        = some { globalCounter := 0, stdout := "配列の内容: 1 2 \n", heap := [[1, 2]],
                 reads := [0, 1] }
      ∧ ¬ ∃ s', printArray 0 2 { initState with heap := [[1, 2]] } = some s'
          ∧ s'.stdout = ({ initState with heap := [[1, 2]] } : State).stdout
              ++ ("配列の内容: " ++ String.intercalate " " (([1, 2] : List Int).map fmtD) ++ "\n") := by
  have hrun : printArray 0 2 { initState with heap := [[1, 2]] }
      = some { globalCounter := 0, stdout := "配列の内容: 1 2 \n", heap := [[1, 2]],
               reads := [0, 1] } := by
    have hs : ({ initState with heap := [[1, 2]] } : State).heap[0]? = some [1, 2] := rfl
    rw [printArray_spec hs 2 (by decide)]
    decide
  refine ⟨hrun, ?_⟩
  rintro ⟨s', hs', hout⟩
  rw [hrun] at hs'
  cases hs'
  revert hout
  decide

/-- Claim C3, amended. For an array `arr` of length `n`, `printArray(arr, n)`
returns and appends to standard output the label, then the decimal renderings
of `arr[0]`, ..., `arr[n-1]` in index order with one space between consecutive
elements and, when `n ≥ 1`, one more space after the last element, then a
newline. -/
theorem printArray_joined (arr : Nat) (xs : List Int) (n : Int) (s : State)
    (hs : s.heap[arr]? = some xs) (hn : n = xs.length) :
    ∃ s', printArray arr n s = some s'
      ∧ s'.stdout = s.stdout ++ ("配列の内容: " ++ String.intercalate " " (xs.map fmtD)
          ++ (if 1 ≤ n then " " else "") ++ "\n") := by
  refine ⟨_, printArray_spec hs n (le_of_eq hn), ?_⟩
  have htake : xs.take n.toNat = xs := by
    rw [hn, Int.toNat_ofNat, List.take_length]
  simp only [htake, join_fmtD_eq_intercalate]
  cases xs with
  | nil =>
    have : ¬ (1 : Int) ≤ n := by rw [hn]; decide
    simp only [if_neg this, if_true, String.append_assoc]
  | cons x xs =>
    have : (1 : Int) ≤ n := by rw [hn]; simp only [List.length_cons]; omega
    simp only [if_pos this, if_neg (List.cons_ne_nil x xs), String.append_assoc]

/-- Witness for the amended C3 on a three-element array. -/
theorem printArray_joined_witness :
    ({ initState with heap := [[7, -8, 9]] } : State).heap[0]? = some [7, -8, 9]
      ∧ (3 : Int) = ([7, -8, 9] : List Int).length
      ∧ ∃ s', printArray 0 3 { initState with heap := [[7, -8, 9]] } = some s'
        ∧ s'.stdout = ({ initState with heap := [[7, -8, 9]] } : State).stdout ++ ("配列の内容: "
            ++ String.intercalate " " (([7, -8, 9] : List Int).map fmtD)
            ++ (if (1 : Int) ≤ 3 then " " else "") ++ "\n") :=
  ⟨rfl, by decide,
    printArray_joined 0 [7, -8, 9] 3 { initState with heap := [[7, -8, 9]] } rfl (by decide)⟩

/-- Claim C4. For every array argument, `printArray(arr, 0)` returns and
appends only the label `配列の内容: ` and the terminating newline; no element
is read and nothing else of the state changes. -/
theorem printArray_zero (arr : Nat) (s : State) :
    printArray arr 0 s = some { s with stdout := s.stdout ++ ("配列の内容: " ++ "\n") } := by
  unfold printArray
  rw [printArrayLoop, dif_neg (by decide)]
  simp only [printf, String.append_assoc]

/-- Claim C10. For every size `n ≤ length(arr)`, negative sizes included,
`printArray(arr, n)` returns (no subscript leaves the array), the subscripts
it evaluates are exactly `0, 1, ..., n - 1` in this order, each of them
satisfies `0 ≤ i < n` and lies inside the array, their number is `max(n, 0)`,
and the array objects and `globalCounter` are unchanged. -/
theorem printArray_safe (arr : Nat) (xs : List Int) (n : Int) (s : State)
    (hs : s.heap[arr]? = some xs) (hn : n ≤ xs.length) :
    ∃ s' newReads, printArray arr n s = some s'
      ∧ s'.reads = s.reads ++ newReads
      ∧ newReads = (List.range n.toNat).map Int.ofNat
      ∧ (∀ i ∈ newReads, 0 ≤ i ∧ i < n ∧ i < xs.length)
      ∧ (newReads.length : Int) = max n 0
      ∧ s'.heap = s.heap
      ∧ s'.heap[arr]? = some xs
      ∧ s'.globalCounter = s.globalCounter := by
  refine ⟨_, _, printArray_spec hs n hn, rfl, rfl, ?_, ?_, rfl, hs, rfl⟩
  · intro i hi
    simp only [List.mem_map, List.mem_range] at hi
    obtain ⟨k, hk, rfl⟩ := hi
    simp only [Int.ofNat_eq_coe]
    omega
  · simp only [List.length_map, List.length_range]
    omega

/-- Witness for C10: size 2 on a three-element array, from a state with a
non-zero counter. The loop body runs twice and the subscripts `0` and `1`
are evaluated. -/
theorem printArray_safe_witness :
    ({ initState with heap := [[7, -8, 9]], globalCounter := 3 } : State).heap[0]?
        = some [7, -8, 9]
      ∧ (2 : Int) ≤ ([7, -8, 9] : List Int).length
      ∧ ∃ s' newReads,
        printArray 0 2 { initState with heap := [[7, -8, 9]], globalCounter := 3 } = some s'
        ∧ s'.reads
            = ({ initState with heap := [[7, -8, 9]], globalCounter := 3 } : State).reads
              ++ newReads
        ∧ newReads = (List.range (2 : Int).toNat).map Int.ofNat
        ∧ (∀ i ∈ newReads, 0 ≤ i ∧ i < (2 : Int) ∧ i < ([7, -8, 9] : List Int).length)
        ∧ (newReads.length : Int) = max 2 0
        ∧ s'.heap = ({ initState with heap := [[7, -8, 9]], globalCounter := 3 } : State).heap
        ∧ s'.heap[0]? = some [7, -8, 9]
        ∧ s'.globalCounter
            = ({ initState with heap := [[7, -8, 9]], globalCounter := 3 } : State).globalCounter :=
  ⟨rfl, by decide,
    printArray_safe 0 [7, -8, 9] 2 { initState with heap := [[7, -8, 9]], globalCounter := 3 }
      rfl (by decide)⟩


/-! ## The entry point -/

/-- Claim C2. Started with `globalCounter = 0` and nothing written, `main`
returns 0 and standard output holds exactly the three lines
`配列の内容: 1 2 3 4 5 ` (with the trailing space), `10 + 20 = 30` and
`グローバルカウンター: 1`, in this order, each ended by a newline. -/
theorem main_writes_three_lines (s : State)
    (h0 : s.globalCounter = 0) (hout : s.stdout = "") :
    ∃ s', main s = some (0, s')
      ∧ s'.stdout = "配列の内容: 1 2 3 4 5 " ++ "\n" ++ "10 + 20 = 30" ++ "\n"
          ++ "グローバルカウンター: 1" ++ "\n" := by
  refine ⟨_, main_closed s h0, ?_⟩
  simp only [hout]
  decide

/-- Witness for C2 at the state of program start. -/
theorem main_writes_three_lines_witness :
    initState.globalCounter = 0 ∧ initState.stdout = ""
      ∧ ∃ s', main initState = some (0, s')
        ∧ s'.stdout = "配列の内容: 1 2 3 4 5 " ++ "\n" ++ "10 + 20 = 30" ++ "\n"
            ++ "グローバルカウンター: 1" ++ "\n" :=
  ⟨rfl, rfl, main_writes_three_lines initState rfl rfl⟩

/-- Claim C5. In a run of `main` started with `globalCounter = 0` and nothing
written, the values of the counter before the first statement and after each
of the five statements are `0, 0, 0, 0, 1, 1`: it changes exactly once, by
`+1`, at the statement `globalCounter++`, when the array line and the sum line
are already written. The final value is 1 and the third line shows that
post-increment value. -/
theorem counter_incremented_once (s : State)
    (h0 : s.globalCounter = 0) (hout : s.stdout = "") :
    (List.range 6).map (fun k => (frameAfter k s).map fun f => f.st.globalCounter)
        = [some 0, some 0, some 0, some 0, some 1, some 1]
      ∧ (frameAfter 3 s).map (fun f => f.st.stdout)
          = some "配列の内容: 1 2 3 4 5 \n10 + 20 = 30\n"
      ∧ (frameAfter 3 s).bind stmtIncr = frameAfter 4 s
      ∧ (frameAfter 4 s).map (fun f => f.st.stdout)
          = some "配列の内容: 1 2 3 4 5 \n10 + 20 = 30\n"
      ∧ ∃ s', main s = some (0, s')
          ∧ (frameAfter 5 s).map (fun f => f.st) = some s'
          ∧ s'.globalCounter = 1
          ∧ s'.stdout = "配列の内容: 1 2 3 4 5 \n10 + 20 = 30\n"
              ++ ("グローバルカウンター: " ++ fmtD s'.globalCounter ++ "\n") := by
  obtain ⟨f0, f1, f2, f3, f4, f5⟩ := frameAfter_closed s h0
  have hl : ("" : String) ++ "配列の内容: 1 2 3 4 5 \n" ++ "10 + 20 = 30\n"
      = "配列の内容: 1 2 3 4 5 \n10 + 20 = 30\n" := by decide
  have hl3 : ("" : String) ++ "配列の内容: 1 2 3 4 5 \n" ++ "10 + 20 = 30\n"
      ++ "グローバルカウンター: 1\n"
      = "配列の内容: 1 2 3 4 5 \n10 + 20 = 30\n"
        ++ ("グローバルカウンター: " ++ fmtD 1 ++ "\n") := by decide
  refine ⟨?_, ?_, ?_, ?_, _, main_closed s h0, ?_, rfl, ?_⟩
  · simp only [List.range, List.range.loop, List.map, f0, f1, f2, f3, f4, f5, Option.map,
      mainEntry, h0]
  · rw [f3]; simp only [Option.map, hout, hl]
  · rw [f3, f4]
    simp only [Option.bind, stmtIncr, incrGlobalCounter]
    rfl
  · rw [f4]; simp only [Option.map, hout, hl]
  · rw [f5]; rfl
  · simp only [hout, hl3]

/-- Witness for C5 at the state of program start. -/
theorem counter_incremented_once_witness :
    initState.globalCounter = 0 ∧ initState.stdout = ""
      ∧ (List.range 6).map (fun k => (frameAfter k initState).map fun f => f.st.globalCounter)
          = [some 0, some 0, some 0, some 0, some 1, some 1]
      ∧ (frameAfter 3 initState).map (fun f => f.st.stdout)
          = some "配列の内容: 1 2 3 4 5 \n10 + 20 = 30\n"
      ∧ (frameAfter 3 initState).bind stmtIncr = frameAfter 4 initState
      ∧ (frameAfter 4 initState).map (fun f => f.st.stdout)
          = some "配列の内容: 1 2 3 4 5 \n10 + 20 = 30\n"
      ∧ ∃ s', main initState = some (0, s')
          ∧ (frameAfter 5 initState).map (fun f => f.st) = some s'
          ∧ s'.globalCounter = 1
          ∧ s'.stdout = "配列の内容: 1 2 3 4 5 \n10 + 20 = 30\n"
              ++ ("グローバルカウンター: " ++ fmtD s'.globalCounter ++ "\n") :=
  ⟨rfl, rfl, counter_incremented_once initState rfl rfl⟩


/-- Claim C6. `globalCounter` never decreases: a call of `calculateSum` and a
call of `printArray` that returns leave it at least as large as before, and in
a run of `main` started with the counter at its initial value 0 the counter
is 0 on entry and every statement of `main` is executed from a state with a
non-negative counter and leaves it at least as large as before. -/
theorem globalCounter_monotone (s : State) (h0 : s.globalCounter = 0)
    (a b : Int) (arr : Nat) (n : Int) (t t' : State) (hp : printArray arr n t = some t')
    (k : Nat) (hk : k < mainBody.length) :
    t.globalCounter ≤ (calculateSum a b t).2.globalCounter
      ∧ t.globalCounter ≤ t'.globalCounter
      ∧ (mainEntry s).st.globalCounter = 0
      ∧ ∃ f f', frameAfter k s = some f
          ∧ mainBody[k] f = some f'
          ∧ frameAfter (k + 1) s = some f'
          ∧ 0 ≤ f.st.globalCounter
          ∧ f.st.globalCounter ≤ f'.st.globalCounter := by
  obtain ⟨f0, f1, f2, f3, f4, f5⟩ := frameAfter_closed s h0
  refine ⟨le_refl _, le_of_eq (printArray_frame hp).1.symm, h0, ?_⟩
  have hk5 : k < 5 := hk
  have hl2 : "10 + 20 = " ++ fmtD 30 ++ "\n" = "10 + 20 = 30\n" := by decide
  have hl3 : "グローバルカウンター: " ++ fmtD 1 ++ "\n" = "グローバルカウンター: 1\n" := by decide
  have hsum : wrapInt (10 + 20) = 30 := by decide
  have hinc : wrapInt (0 + 1) = 1 := by decide
  have h01 : (0 : Int) ≤ 1 := by decide
  interval_cases k
  · refine ⟨_, _, f0, ?_, f1, le_of_eq h0.symm, le_of_eq h0⟩
    simp only [mainBody, List.getElem_cons_zero, stmtPrintArray_mainEntry, h0]
  · refine ⟨_, _, f1, ?_, f2, le_refl _, le_refl _⟩
    simp only [mainBody, List.getElem_cons_succ, List.getElem_cons_zero, stmtAssignSum,
      calculateSum, hsum]
  · refine ⟨_, _, f2, ?_, f3, le_refl _, le_refl _⟩
    simp only [mainBody, List.getElem_cons_succ, List.getElem_cons_zero, stmtPrintSum,
      printf, hl2]
  · refine ⟨_, _, f3, ?_, f4, le_refl _, h01⟩
    simp only [mainBody, List.getElem_cons_succ, List.getElem_cons_zero, stmtIncr,
      incrGlobalCounter, hinc]
  · refine ⟨_, _, f4, ?_, f5, h01, le_refl _⟩
    simp only [mainBody, List.getElem_cons_succ, List.getElem_cons_zero, stmtPrintCounter,
      printf, hl3]

/-- Witness for C6: the run from program start, the step `globalCounter++`
of `main`, and a call of `printArray` on a two-element array. -/
theorem globalCounter_monotone_witness :
    initState.globalCounter = 0
      ∧ printArray 0 2 { initState with heap := [[1, 2]], globalCounter := 7 }
          = some { globalCounter := 7, stdout := "配列の内容: 1 2 \n", heap := [[1, 2]],
                   reads := [0, 1] }
      ∧ 3 < mainBody.length
      ∧ ({ initState with heap := [[1, 2]], globalCounter := 7 } : State).globalCounter
          ≤ (calculateSum 5 6 { initState with heap := [[1, 2]], globalCounter := 7 }).2.globalCounter
      ∧ ({ initState with heap := [[1, 2]], globalCounter := 7 } : State).globalCounter
          ≤ ({ globalCounter := 7, stdout := "配列の内容: 1 2 \n", heap := [[1, 2]],
               reads := [0, 1] } : State).globalCounter
      ∧ (mainEntry initState).st.globalCounter = 0
      ∧ ∃ f f', frameAfter 3 initState = some f
          ∧ mainBody[3] f = some f'
          ∧ frameAfter (3 + 1) initState = some f'
          ∧ 0 ≤ f.st.globalCounter
          ∧ f.st.globalCounter ≤ f'.st.globalCounter :=
  have hs : ({ initState with heap := [[1, 2]], globalCounter := 7 } : State).heap[0]?
      = some [1, 2] := rfl
  have hrun : printArray 0 2 { initState with heap := [[1, 2]], globalCounter := 7 }
      = some { globalCounter := 7, stdout := "配列の内容: 1 2 \n", heap := [[1, 2]],
               reads := [0, 1] } := by
    rw [printArray_spec hs 2 (by decide)]
    decide
  ⟨rfl, hrun, by decide,
    globalCounter_monotone initState rfl 5 6 0 2
      { initState with heap := [[1, 2]], globalCounter := 7 }
      { globalCounter := 7, stdout := "配列の内容: 1 2 \n", heap := [[1, 2]], reads := [0, 1] }
      hrun 3 (by decide)⟩

/-- Claim C8. Two runs of `main`, each started with `globalCounter = 0` and
nothing written, both return and produce the same standard output and the
same exit code, whatever the rest of the start state is. -/
theorem main_rerun_identical (s t : State)
    (hs0 : s.globalCounter = 0) (hsout : s.stdout = "")
    (ht0 : t.globalCounter = 0) (htout : t.stdout = "") :
    ∃ code out, (main s).map (fun r => (r.1, r.2.stdout)) = some (code, out)
      ∧ (main t).map (fun r => (r.1, r.2.stdout)) = some (code, out) := by
  refine ⟨0, "配列の内容: 1 2 3 4 5 \n10 + 20 = 30\nグローバルカウンター: 1\n", ?_, ?_⟩
  · rw [main_closed s hs0]
    simp only [Option.map, hsout]
    decide
  · rw [main_closed t ht0]
    simp only [Option.map, htout]
    decide

/-- Witness for C8: the state of program start and a start state that
differs from it outside the counter and standard output. -/
theorem main_rerun_identical_witness :
    initState.globalCounter = 0 ∧ initState.stdout = ""
      ∧ ({ initState with heap := [[9, 9]], reads := [4] } : State).globalCounter = 0
      ∧ ({ initState with heap := [[9, 9]], reads := [4] } : State).stdout = ""
      ∧ ∃ code out, (main initState).map (fun r => (r.1, r.2.stdout)) = some (code, out)
        ∧ (main { initState with heap := [[9, 9]], reads := [4] }).map
            (fun r => (r.1, r.2.stdout)) = some (code, out) :=
  ⟨rfl, rfl, rfl, rfl,
    main_rerun_identical initState { initState with heap := [[9, 9]], reads := [4] }
      rfl rfl rfl rfl⟩

end SampleCode
